import Mathlib

/-!
Verification development for the IACSSEARCH search pipeline.

Scores that the Python source stores in `float` fields are modelled as
exact rationals (`ℚ`); all arithmetic performed on them in the relevant
code paths (weighting, min/max, min-max normalization, comparison) is
modelled by the corresponding exact operation.  Python's dynamically
added attributes `weighted_score` / `normalized_score` (absent until the
merge step assigns them) are modelled as `Option ℚ` fields, with
`getattr(m, 'weighted_score', m.score)` becoming `Option.getD`.
-/

namespace IacsSearch

/-- Vector match record, from `modules/search/schema.py` (`VectorMatch`)
plus the two attributes the merge step of
`search_vector_service.py` adds dynamically (`weighted_score`,
`normalized_score`).  The opaque `metadata` / `vector` / `distance`
payloads are not inspected by any merge/sort/threshold code and are
omitted. -/
structure VectorMatch where
  document_id : String
  score : ℚ
  collection_name : String
  weighted_score : Option ℚ := none
  normalized_score : Option ℚ := none
deriving DecidableEq, Repr

/-- Per-collection weights from `SearchVectorService.__init__`
(`collection_weights`), with the `dict.get(name, 1.0)` default for
unknown collections. -/
def collection_weights (c : String) : ℚ :=
  if c = "emails" then 1
  else if c = "documents" then 9/10
  else if c = "messages" then 8/10
  else 1

/-- `getattr(match, 'weighted_score', match.score)` as used by the
normalization and sort helpers. -/
def wscore (m : VectorMatch) : ℚ := m.weighted_score.getD m.score

/-- One collection's slice of the first loop of
`search_vector_merge_collection_results`: set
`match.weighted_score = match.score * weight` and
`match.collection_name = collection_name` on each match. -/
def weightedGroup (c : String) (ms : List VectorMatch) : List VectorMatch :=
  ms.map fun m =>
    { m with
      weighted_score := some (m.score * collection_weights c)
      collection_name := c }

/-- First loop of `search_vector_merge_collection_results`: iterate the
collection-results dict in insertion order, weighting each collection's
matches and collecting them into `all_matches`. -/
def applyCollectionWeights (collection_results : List (String × List VectorMatch)) :
    List VectorMatch :=
  collection_results.flatMap fun p => weightedGroup p.1 p.2

/-- Keys of the `collection_stats` dict built by
`_search_vector_normalize_scores_across_collections`, in insertion
order (first occurrence of each `collection_name`). -/
def statGroupKeys (ms : List VectorMatch) : List String :=
  ms.foldl (fun acc m =>
    if m.collection_name ∈ acc then acc else acc ++ [m.collection_name]) []

/-- Minimum of `wscore` over a nonempty group (Python folds `min` from
`float('inf')`; on a nonempty list this equals the fold from the head). -/
def groupMin : List VectorMatch → ℚ
  | [] => 0
  | h :: t => t.foldl (fun a m => min a (wscore m)) (wscore h)

/-- Maximum of `wscore` over a nonempty group (Python folds `max` from
`float('-inf')`). -/
def groupMax : List VectorMatch → ℚ
  | [] => 0
  | h :: t => t.foldl (fun a m => max a (wscore m)) (wscore h)

/-- `_search_vector_normalize_scores_across_collections`: group the
matches by `collection_name` (dict insertion order), compute each
group's min and max of the weighted-or-raw score, then emit the
groups in key order, min-max normalizing within each group and
assigning `normalized_score = 1.0` whenever the group's score range is
not positive. -/
def search_vector_normalize_scores_across_collections
    (ms : List VectorMatch) : List VectorMatch :=
  (statGroupKeys ms).flatMap fun c =>
    let grp := ms.filter (fun m => m.collection_name = c)
    let mn := groupMin grp
    let rng := groupMax grp - mn
    grp.map fun m =>
      { m with
        normalized_score :=
          some (if 0 < rng then (wscore m - mn) / rng else 1) }

/-- `_search_vector_deduplicate`: keep the first-seen occurrence of each
`document_id`. -/
def search_vector_deduplicate (ms : List VectorMatch) : List VectorMatch :=
  go [] ms
where
  go (seen : List String) : List VectorMatch → List VectorMatch
    | [] => []
    | m :: rest =>
        if m.document_id ∈ seen then go seen rest
        else m :: go (m.document_id :: seen) rest

/-- Stable descending insertion for `sortStableDesc`; an element moves
past the head only when its key is strictly smaller, which reproduces
the stability of Python's `sorted(..., reverse=True)`. -/
def insertDesc (key : VectorMatch → ℚ) (m : VectorMatch) :
    List VectorMatch → List VectorMatch
  | [] => [m]
  | h :: t => if key h ≤ key m then m :: h :: t else h :: insertDesc key m t

/-- Stable sort, descending in `key`; matches with equal keys keep their
input order, as Python's `sorted` guarantees. -/
def sortStableDesc (key : VectorMatch → ℚ) : List VectorMatch → List VectorMatch
  | [] => []
  | h :: t => insertDesc key h (sortStableDesc key t)

/-- `_search_vector_sort_by_relevance`:
`sorted(matches, key=lambda m: getattr(m, 'weighted_score', m.score), reverse=True)`. -/
def search_vector_sort_by_relevance (ms : List VectorMatch) : List VectorMatch :=
  sortStableDesc wscore ms

/-- `search_vector_merge_collection_results`: weight, normalize,
deduplicate, sort, truncate to `limit`. -/
def search_vector_merge_collection_results
    (collection_results : List (String × List VectorMatch)) (limit : ℕ) :
    List VectorMatch :=
  ((search_vector_sort_by_relevance
      (search_vector_deduplicate
        (search_vector_normalize_scores_across_collections
          (applyCollectionWeights collection_results)))).take limit)

/-! ### Reference algorithm of claim C1 (spec §4.3 merge steps 1–5)

`specMergeReference` is written from the spec's words, to be compared
with `search_vector_merge_collection_results` above: per collection,
weight the raw scores, min-max normalize the weighted scores within the
collection (1.0 throughout a collection whose min equals its max),
concatenate in mapping order, deduplicate by document id keeping the
first-seen occurrence, sort descending by normalized (falling back to
weighted, falling back to raw) score, truncate to the limit. -/

/-- Spec step 1+2 for a single collection: weight each match's raw score
by the collection's fixed weight, then min-max normalize the weighted
scores within this collection (all 1.0 when min = max). -/
def specWeightAndNormalizeGroup (c : String) (ms : List VectorMatch) :
    List VectorMatch :=
  let weighted := weightedGroup c ms
  let mn := groupMin weighted
  let mx := groupMax weighted
  weighted.map fun m =>
    { m with
      normalized_score :=
        some (if mn = mx then 1 else (wscore m - mn) / (mx - mn)) }

/-- Spec sort key of step 4: normalized score, falling back to weighted,
falling back to raw. -/
def specSortKey (m : VectorMatch) : ℚ :=
  m.normalized_score.getD (m.weighted_score.getD m.score)

/-- The spec's reference merge algorithm, claim C1's description of
`search_vector_merge_collection_results`. -/
def specMergeReference
    (collection_results : List (String × List VectorMatch)) (limit : ℕ) :
    List VectorMatch :=
  let pooled :=
    collection_results.flatMap fun p => specWeightAndNormalizeGroup p.1 p.2
  ((sortStableDesc specSortKey (search_vector_deduplicate pooled)).take limit)

/-- The amended reference algorithm: identical to `specMergeReference`
except that step 4 sorts by the weighted score falling back to the raw
score (the normalized score is computed but not used for ordering). -/
def specMergeAmended
    (collection_results : List (String × List VectorMatch)) (limit : ℕ) :
    List VectorMatch :=
  let pooled :=
    collection_results.flatMap fun p => specWeightAndNormalizeGroup p.1 p.2
  ((sortStableDesc wscore (search_vector_deduplicate pooled)).take limit)

/-! ### Lemmas relating the source merge pipeline to the spec reference -/

theorem weightedGroup_name {c : String} {ms : List VectorMatch} {m : VectorMatch}
    (h : m ∈ weightedGroup c ms) : m.collection_name = c := by
  rcases List.mem_map.mp h with ⟨x, _, rfl⟩
  rfl

theorem filter_weightedGroup_self (c : String) (ms : List VectorMatch) :
    (weightedGroup c ms).filter (fun m => m.collection_name = c) =
      weightedGroup c ms := by
  apply List.filter_eq_self.mpr
  intro m hm
  simp [weightedGroup_name hm]

theorem filter_weightedGroup_ne {c c' : String} (h : c' ≠ c) (ms : List VectorMatch) :
    (weightedGroup c' ms).filter (fun m => m.collection_name = c) = [] := by
  rw [List.filter_eq_nil_iff]
  intro m hm
  simp [weightedGroup_name hm, h]

/-- The fold step that builds the `collection_stats` dict key list. -/
def statStep (acc : List String) (m : VectorMatch) : List String :=
  if m.collection_name ∈ acc then acc else acc ++ [m.collection_name]

theorem statGroupKeys_eq_foldl (ms : List VectorMatch) :
    statGroupKeys ms = ms.foldl statStep [] := rfl

theorem foldl_statStep_block {c : String} {blk : List VectorMatch}
    (hblk : ∀ m ∈ blk, m.collection_name = c) (acc : List String) :
    blk.foldl statStep acc =
      if blk.isEmpty then acc else if c ∈ acc then acc else acc ++ [c] := by
  induction blk generalizing acc with
  | nil => simp
  | cons m t ih =>
      have hm : m.collection_name = c := hblk m (by simp)
      have ht : ∀ x ∈ t, x.collection_name = c := fun x hx => hblk x (by simp [hx])
      simp only [List.foldl_cons, List.isEmpty_cons, if_false, Bool.false_eq_true]
      rw [statStep, hm]
      by_cases hc : c ∈ acc
      · simp only [hc, if_true]
        rw [ih ht acc]
        by_cases hte : t.isEmpty <;> simp [hte, hc]
      · simp only [hc, if_false]
        rw [ih ht (acc ++ [c])]
        by_cases hte : t.isEmpty <;> simp [hte]

theorem foldl_statStep_applyWeights
    (L : List (String × List VectorMatch)) (acc : List String)
    (hdist : (L.map Prod.fst).Pairwise (· ≠ ·))
    (hacc : ∀ p ∈ L, p.1 ∉ acc) :
    (applyCollectionWeights L).foldl statStep acc =
      acc ++ (L.filter (fun p => ¬ p.2.isEmpty)).map Prod.fst := by
  induction L generalizing acc with
  | nil => simp [applyCollectionWeights]
  | cons p L ih =>
      rcases p with ⟨c, ms⟩
      have hblockall : ∀ m ∈ weightedGroup c ms, m.collection_name = c :=
        fun m hm => weightedGroup_name hm
      have hdist' : (L.map Prod.fst).Pairwise (· ≠ ·) :=
        (List.pairwise_cons.mp hdist).2
      have hhead : ∀ b ∈ L.map Prod.fst, c ≠ b :=
        (List.pairwise_cons.mp hdist).1
      rw [applyCollectionWeights, List.flatMap_cons, List.foldl_append,
        foldl_statStep_block hblockall acc]
      by_cases hms : ms.isEmpty
      · have hwe : (weightedGroup c ms).isEmpty := by
          rcases ms with _ | _
          · rfl
          · simp at hms
        rw [if_pos hwe]
        rw [← applyCollectionWeights, ih acc hdist' (fun q hq => hacc q (by simp [hq]))]
        have : (((c, ms) :: L).filter (fun p => ¬ p.2.isEmpty)) =
            L.filter (fun p => ¬ p.2.isEmpty) := by
          rw [List.filter_cons]
          simp [hms]
        rw [this]
      · have hwe : ¬ (weightedGroup c ms).isEmpty := by
          rcases ms with _ | _
          · simp at hms
          · simp [weightedGroup]
        rw [if_neg hwe, if_neg (hacc (c, ms) (by simp))]
        have hacc' : ∀ q ∈ L, q.1 ∉ acc ++ [c] := by
          intro q hq
          have h1 : q.1 ∉ acc := hacc q (by simp [hq])
          have h2 : c ≠ q.1 := hhead q.1 (List.mem_map.mpr ⟨q, hq, rfl⟩)
          simp only [List.mem_append, List.mem_singleton]
          rintro (h | h)
          · exact h1 h
          · exact h2 h.symm
        rw [← applyCollectionWeights, ih (acc ++ [c]) hdist' hacc']
        have : (((c, ms) :: L).filter (fun p => ¬ p.2.isEmpty)) =
            (c, ms) :: L.filter (fun p => ¬ p.2.isEmpty) := by
          rw [List.filter_cons]
          simp [hms]
        rw [this, List.map_cons, List.append_assoc]
        rfl

theorem statGroupKeys_applyWeights
    (L : List (String × List VectorMatch))
    (hdist : (L.map Prod.fst).Pairwise (· ≠ ·)) :
    statGroupKeys (applyCollectionWeights L) =
      (L.filter (fun p => ¬ p.2.isEmpty)).map Prod.fst := by
  rw [statGroupKeys_eq_foldl, foldl_statStep_applyWeights L [] hdist (by simp)]
  simp

theorem filter_applyWeights_not_mem
    {c : String} (L : List (String × List VectorMatch))
    (h : ∀ p ∈ L, p.1 ≠ c) :
    (applyCollectionWeights L).filter (fun m => m.collection_name = c) = [] := by
  induction L with
  | nil => simp [applyCollectionWeights]
  | cons p L ih =>
      rw [applyCollectionWeights, List.flatMap_cons, List.filter_append,
        filter_weightedGroup_ne (h p (by simp)), List.nil_append,
        ← applyCollectionWeights]
      exact ih fun q hq => h q (by simp [hq])

theorem filter_applyWeights_mem
    {c : String} {ms : List VectorMatch} (L : List (String × List VectorMatch))
    (hdist : (L.map Prod.fst).Pairwise (· ≠ ·))
    (hmem : (c, ms) ∈ L) :
    (applyCollectionWeights L).filter (fun m => m.collection_name = c) =
      weightedGroup c ms := by
  induction L with
  | nil => simp at hmem
  | cons p L ih =>
      rcases List.mem_cons.mp hmem with heq | htail
      · subst heq
        rw [applyCollectionWeights, List.flatMap_cons, List.filter_append,
          filter_weightedGroup_self, ← applyCollectionWeights,
          filter_applyWeights_not_mem L, List.append_nil]
        intro q hq
        exact fun hqc =>
          (List.pairwise_cons.mp hdist).1 q.1
            (List.mem_map.mpr ⟨q, hq, rfl⟩) hqc.symm
      · have hne : p.1 ≠ c := by
          intro hpc
          exact (List.pairwise_cons.mp hdist).1 c
            (List.mem_map.mpr ⟨(c, ms), htail, rfl⟩) hpc
        rw [applyCollectionWeights, List.flatMap_cons, List.filter_append,
          filter_weightedGroup_ne hne, List.nil_append, ← applyCollectionWeights]
        exact ih (List.pairwise_cons.mp hdist).2 htail

theorem foldl_min_le_foldl_max (t : List VectorMatch) :
    ∀ a b : ℚ, a ≤ b →
      t.foldl (fun x m => min x (wscore m)) a ≤
        t.foldl (fun x m => max x (wscore m)) b := by
  induction t with
  | nil => intro a b h; simpa using h
  | cons m t ih =>
      intro a b h
      exact ih _ _ (le_trans (min_le_left _ _) (le_trans h (le_max_left _ _)))

theorem groupMin_le_groupMax (l : List VectorMatch) : groupMin l ≤ groupMax l := by
  cases l with
  | nil => simp [groupMin, groupMax]
  | cons h t => exact foldl_min_le_foldl_max t _ _ le_rfl

/-- The code's `if score_range > 0` normalization agrees with the spec's
`if min == max` formulation on every group. -/
theorem normalizeGroup_code_eq_spec (grp : List VectorMatch) :
    (grp.map fun m =>
      { m with
        normalized_score :=
          some (if 0 < groupMax grp - groupMin grp
            then (wscore m - groupMin grp) / (groupMax grp - groupMin grp)
            else 1) }) =
    (grp.map fun m =>
      { m with
        normalized_score :=
          some (if groupMin grp = groupMax grp then 1
            else (wscore m - groupMin grp) / (groupMax grp - groupMin grp)) }) := by
  rcases eq_or_lt_of_le (groupMin_le_groupMax grp) with heq | hlt
  · simp [heq]
  · have h1 : 0 < groupMax grp - groupMin grp := sub_pos.mpr hlt
    have h2 : groupMin grp ≠ groupMax grp := ne_of_lt hlt
    simp [h1, h2]

theorem flatMap_filter_nonempty
    (f : String × List VectorMatch → List VectorMatch)
    (hf : ∀ p : String × List VectorMatch, p.2.isEmpty → f p = [])
    (L : List (String × List VectorMatch)) :
    (L.filter (fun p => ¬ p.2.isEmpty)).flatMap f = L.flatMap f := by
  induction L with
  | nil => rfl
  | cons p L ih =>
      by_cases hp : p.2.isEmpty
      · have hfc : (p :: L).filter (fun q => ¬ q.2.isEmpty) =
            L.filter (fun q => ¬ q.2.isEmpty) := by
          simp [List.filter_cons, List.isEmpty_iff.mp hp]
        rw [hfc, List.flatMap_cons, hf p hp, List.nil_append, ih]
      · have hne : p.2 ≠ [] := fun h => hp (by simp [h])
        have hfc : (p :: L).filter (fun q => ¬ q.2.isEmpty) =
            p :: L.filter (fun q => ¬ q.2.isEmpty) := by
          simp [List.filter_cons, hne]
        rw [hfc, List.flatMap_cons, List.flatMap_cons, ih]

theorem specWeightAndNormalizeGroup_empty (c : String) :
    specWeightAndNormalizeGroup c [] = [] := rfl

/-- With pairwise-distinct collection names (a dict), the source's
flatten-then-regroup normalization equals the spec's per-collection
weight-and-normalize, concatenated in mapping order. -/
theorem normalize_applyWeights_eq_spec
    (L : List (String × List VectorMatch))
    (hdist : (L.map Prod.fst).Pairwise (· ≠ ·)) :
    search_vector_normalize_scores_across_collections
        (applyCollectionWeights L) =
      L.flatMap fun p => specWeightAndNormalizeGroup p.1 p.2 := by
  rw [search_vector_normalize_scores_across_collections,
    statGroupKeys_applyWeights L hdist, List.flatMap_map]
  rw [← flatMap_filter_nonempty (fun p => specWeightAndNormalizeGroup p.1 p.2)
    (fun p hp => by
      rcases p with ⟨c, ms⟩
      rcases ms with _ | _
      · rfl
      · simp at hp)]
  apply List.flatMap_congr
  intro p hp
  have hmem : p ∈ L := (List.mem_filter.mp hp).1
  have hgrp :
      (applyCollectionWeights L).filter (fun m => m.collection_name = p.1) =
        weightedGroup p.1 p.2 :=
    filter_applyWeights_mem L hdist (by rwa [Prod.mk.eta])
  simp only [hgrp]
  rw [specWeightAndNormalizeGroup]
  exact normalizeGroup_code_eq_spec (weightedGroup p.1 p.2)

/-- C1 counterexample input: two collections, "emails" holding documents
A (raw 0.9) and B (raw 0.8) and "documents" holding C (raw 0.5). -/
def c1ExInput : List (String × List VectorMatch) :=
  [("emails",
      [{ document_id := "A", score := 9/10, collection_name := "emails" },
       { document_id := "B", score := 8/10, collection_name := "emails" }]),
   ("documents",
      [{ document_id := "C", score := 5/10, collection_name := "documents" }])]

/-- C1: the claim as stated is false: the source sorts the merged set by
the weighted score (falling back to raw), never by the normalized score,
so on `c1ExInput` with limit 3 the source returns A, B, C while the
spec's reference algorithm (normalized-score sort) returns A, C, B. -/
theorem c1_counterexample :
    search_vector_merge_collection_results c1ExInput 3 ≠
      specMergeReference c1ExInput 3 := by
  intro h
  have hc : (search_vector_merge_collection_results c1ExInput 3).map
      (fun m => m.document_id) = ["A", "B", "C"] := by
    norm_num +decide [search_vector_merge_collection_results, c1ExInput,
      applyCollectionWeights, weightedGroup,
      search_vector_normalize_scores_across_collections, statGroupKeys,
      groupMin, groupMax, wscore, search_vector_deduplicate,
      search_vector_deduplicate.go, search_vector_sort_by_relevance,
      sortStableDesc, insertDesc, collection_weights, List.filter_cons,
      min_def, max_def]
  have hs : (specMergeReference c1ExInput 3).map
      (fun m => m.document_id) = ["A", "C", "B"] := by
    norm_num +decide [specMergeReference, c1ExInput,
      specWeightAndNormalizeGroup, specSortKey, weightedGroup,
      groupMin, groupMax, wscore, search_vector_deduplicate,
      search_vector_deduplicate.go, sortStableDesc, insertDesc,
      collection_weights, min_def, max_def]
  rw [h, hs] at hc
  exact absurd hc (by decide)

/-- C1 (amended): for every mapping (pairwise-distinct collection names)
and positive limit, the multi-collection merge equals the reference
algorithm of the claim with step 4 replaced by: sort descending by the
weighted score, falling back to the raw score; the normalized score is
computed but not used for ordering. -/
theorem c1_merge_eq_spec_amended
    (L : List (String × List VectorMatch)) (limit : ℕ)
    (hdist : (L.map Prod.fst).Pairwise (· ≠ ·)) (_hlim : 0 < limit) :
    search_vector_merge_collection_results L limit = specMergeAmended L limit := by
  rw [search_vector_merge_collection_results, specMergeAmended,
    search_vector_sort_by_relevance, normalize_applyWeights_eq_spec L hdist]

/-- Witness for `c1_merge_eq_spec_amended` at the concrete counterexample
input. -/
theorem c1_merge_eq_spec_amended_witness :
    search_vector_merge_collection_results c1ExInput 3 =
      specMergeAmended c1ExInput 3 :=
  c1_merge_eq_spec_amended c1ExInput 3 (by decide) (by decide)

/-! ### Search modes, filters, queries (`schema.py`) and the mode
dispatch of `search_vector_find` (`search_vector_service.py`).

External vector-store lookups are modelled by an oracle
`store : collection → filters? → scoreThreshold? → points`, standing for
`vector_manager.search_vectors`; a per-collection failure that the
source converts to an empty list is modelled by the oracle returning
`[]` for that collection.  The `_convert_to_infra_filters` projection is
a data repackaging not inspected by any claim, so the oracle receives
the module-level filters directly. -/

/-- `SearchMode` enum. -/
inductive SearchMode where
  | hybrid
  | vector_only
  | filter_only
deriving DecidableEq, Repr

/-- `CollectionStrategy` enum. -/
inductive CollectionStrategy where
  | single
  | multiple
  | auto
deriving DecidableEq, Repr

/-- `DateRange`: the two `datetime` endpoints are modelled as opaque
integer timestamps; no claim inspects them. -/
structure DateRange where
  start_date : Option Int := none
  end_date : Option Int := none
deriving DecidableEq, Repr

/-- `SearchFilters` from `schema.py` (the opaque `custom_filters` dict is
uninspected by every claim and omitted). -/
structure SearchFilters where
  date_range : Option DateRange := none
  sender : Option String := none
  recipients : Option (List String) := some []
  subject_keywords : Option (List String) := some []
  has_attachments : Option Bool := none
  email_type : Option String := none
  tags : Option (List String) := some []
deriving DecidableEq, Repr

/-- Python truthiness of an `Optional[str]` field (`None` and `""` are
falsy). -/
def truthyOptStr : Option String → Bool
  | none => false
  | some s => !s.isEmpty

/-- Python truthiness of an `Optional[List[str]]` field (`None` and `[]`
are falsy). -/
def truthyOptList : Option (List String) → Bool
  | none => false
  | some l => !l.isEmpty

/-- `SearchQuery` (the fields the vector service and orchestrator read;
pydantic defaults from `schema.py`). -/
structure SearchQuery where
  query_text : String
  search_mode : SearchMode := .hybrid
  collection_strategy : CollectionStrategy := .single
  target_collections : Option (List String) := none
  filters : Option SearchFilters := none
  limit : ℕ := 20
  offset : ℕ := 0
  score_threshold : ℚ := 7/10
deriving DecidableEq, Repr

/-- A raw point returned by the vector store (`match.id`,
`match.score`); the opaque payload is uninspected by the claims. -/
structure StorePoint where
  id : String
  score : ℚ
deriving DecidableEq, Repr

/-- The vector-store oracle: collection name, optional filters, optional
score threshold → matched points. -/
def VectorStore : Type :=
  String → Option SearchFilters → Option ℚ → List StorePoint

/-- Conversion of store results to `VectorMatch` as done inline in
`search_vector_service.py` (`VectorMatch(document_id=..., score=...,
collection_name=collection)`). -/
def toVectorMatches (ps : List StorePoint) (c : String) : List VectorMatch :=
  ps.map fun p => { document_id := p.id, score := p.score, collection_name := c }

/-- `available_collections` from `SearchVectorService.__init__`. -/
def available_collections : List String := ["emails", "documents", "messages"]

/-- `search_vector_select_collections`. -/
def search_vector_select_collections
    (strategy : CollectionStrategy) (target_collections : Option (List String)) :
    List String :=
  match strategy with
  | .single => ["emails"]
  | .multiple =>
      match target_collections with
      | some l =>
          if l.isEmpty then ["emails"]
          else
            let valid := l.filter (fun c => c ∈ available_collections)
            if valid.isEmpty then ["emails"] else valid
      | none => ["emails"]
  | .auto => available_collections

/-- `_search_single_collection` (per-collection search of the
multi-collection path; no score threshold is passed to the store). -/
def search_single_collection
    (store : VectorStore) (filters : Option SearchFilters) (c : String) :
    List VectorMatch :=
  toVectorMatches (store c filters none) c

/-- `search_vector_search_multiple_collections`: one store query per
collection, results keyed by collection, then merged. -/
def search_vector_search_multiple_collections
    (store : VectorStore) (collections : List String)
    (filters : Option SearchFilters) (limit : ℕ) : List VectorMatch :=
  search_vector_merge_collection_results
    (collections.map fun c => (c, search_single_collection store filters c))
    limit

/-- `search_vector_find_pure`: multi-collection when more than one
collection, otherwise a single store query carrying the explicit score
threshold.  (The sole caller always passes a nonempty collection list;
the `[]` case, an `IndexError` in Python, is mapped to `[]`.) -/
def search_vector_find_pure
    (store : VectorStore) (collections : List String) (limit : ℕ)
    (score_threshold : ℚ) : List VectorMatch :=
  if 1 < collections.length then
    search_vector_search_multiple_collections store collections none limit
  else
    match collections with
    | [] => []
    | c :: _ => toVectorMatches (store c none (some score_threshold)) c

/-- `search_vector_find_with_filters`: hybrid search; the filter object
travels to the store, no score threshold is passed. -/
def search_vector_find_with_filters
    (store : VectorStore) (filters : Option SearchFilters)
    (collections : List String) (limit : ℕ) : List VectorMatch :=
  if 1 < collections.length then
    search_vector_search_multiple_collections store collections filters limit
  else
    match collections with
    | [] => []
    | c :: _ => toVectorMatches (store c filters none) c

/-- `search_vector_apply_score_threshold`: keep matches with
`m.score >= threshold`. -/
def search_vector_apply_score_threshold
    (ms : List VectorMatch) (threshold : ℚ) : List VectorMatch :=
  ms.filter fun m => threshold ≤ m.score

/-- `search_vector_find`: mode dispatch, then — for any mode that did not
return early — the score threshold step whenever `query.score_threshold`
is truthy (nonzero). -/
def search_vector_find (store : VectorStore) (query : SearchQuery) :
    List VectorMatch :=
  match query.search_mode with
  | .filter_only => []
  | .vector_only =>
      let cols :=
        match query.target_collections with
        | some l => if l.isEmpty then ["emails"] else l
        | none => ["emails"]
      let results :=
        search_vector_find_pure store cols query.limit query.score_threshold
      if query.score_threshold ≠ 0 then
        search_vector_apply_score_threshold results query.score_threshold
      else results
  | .hybrid =>
      let cols :=
        search_vector_select_collections query.collection_strategy
          query.target_collections
      let results :=
        search_vector_find_with_filters store query.filters cols query.limit
      if query.score_threshold ≠ 0 then
        search_vector_apply_score_threshold results query.score_threshold
      else results

/-- C3 counterexample store: every collection returns one point, "D"
with raw score 0.3. -/
def c3Store : VectorStore := fun _ _ _ => [{ id := "D", score := 3/10 }]

/-- C3 counterexample query: hybrid mode, single-collection strategy,
score threshold 0.5. -/
def c3Query : SearchQuery :=
  { query_text := "q", search_mode := .hybrid, score_threshold := 1/2 }

/-- C3: the claim's hybrid half is false: on `c3Query` the unfiltered
hybrid retrieval contains the match "D" with score 0.3, yet
`search_vector_find` returns the empty list — the post-merge
score-threshold step removed a below-threshold match from a hybrid
query's results. -/
theorem c3_counterexample :
    search_vector_find c3Store c3Query = [] ∧
    search_vector_find_with_filters c3Store c3Query.filters
        (search_vector_select_collections c3Query.collection_strategy
          c3Query.target_collections) c3Query.limit =
      [{ document_id := "D", score := 3/10, collection_name := "emails" }] ∧
    (3/10 : ℚ) < c3Query.score_threshold := by
  refine ⟨?_, ?_, by norm_num [c3Query]⟩
  · norm_num +decide [search_vector_find, c3Query, c3Store,
      search_vector_select_collections, search_vector_find_with_filters,
      toVectorMatches, search_vector_apply_score_threshold, List.filter_cons]
  · norm_num +decide [c3Query, c3Store, search_vector_select_collections,
      search_vector_find_with_filters, toVectorMatches]

/-- C3 (amended): the post-merge score-threshold step runs for every
mode that returns results — both `vector_only` and `hybrid` — whenever
the query's score threshold is nonzero; `filter_only` returns empty
before the step. -/
theorem c3_threshold_amended (store : VectorStore) (q : SearchQuery) :
    (q.search_mode = .vector_only → q.score_threshold ≠ 0 →
      ∀ m ∈ search_vector_find store q, q.score_threshold ≤ m.score) ∧
    (q.search_mode = .hybrid → q.score_threshold ≠ 0 →
      search_vector_find store q =
        search_vector_apply_score_threshold
          (search_vector_find_with_filters store q.filters
            (search_vector_select_collections q.collection_strategy
              q.target_collections) q.limit)
          q.score_threshold) ∧
    (q.search_mode = .filter_only → search_vector_find store q = []) := by
  refine ⟨?_, ?_, ?_⟩
  · intro hmode hthr m hm
    rw [search_vector_find, hmode] at hm
    simp only [if_pos hthr] at hm
    exact of_decide_eq_true (List.mem_filter.mp hm).2
  · intro hmode hthr
    rw [search_vector_find, hmode]
    simp only [if_pos hthr]
  · intro hmode
    rw [search_vector_find, hmode]

/-- Witness for `c3_threshold_amended` at the concrete hybrid query. -/
theorem c3_threshold_amended_witness :
    search_vector_find c3Store c3Query =
      search_vector_apply_score_threshold
        (search_vector_find_with_filters c3Store c3Query.filters
          (search_vector_select_collections c3Query.collection_strategy
            c3Query.target_collections) c3Query.limit)
        c3Query.score_threshold :=
  (c3_threshold_amended c3Store c3Query).2.1 rfl (by norm_num [c3Query])

/-! ### Orchestrator health check (`orchestrator.py`,
`search_orchestrator_health_check`).

The four probes (document store, cache, vector store, embedding-provider
liveness) are modelled by their boolean outcomes; the `try/except`
blocks that produce those booleans depend only on external
reachability. -/

/-- The probe outcome dict `health_checks` of
`search_orchestrator_health_check`. -/
structure HealthChecks where
  database : Bool
  cache : Bool
  vector_store : Bool
  openai : Bool
deriving DecidableEq, Repr

/-- Overall status computation of `search_orchestrator_health_check`:
`all(health_checks.values())` decides "healthy" versus "degraded". -/
def health_check_status (checks : HealthChecks) : String :=
  if checks.database && checks.cache && checks.vector_store && checks.openai
  then "healthy" else "degraded"

/-- C2: the claim's cache exception is false: when the cache probe fails
and the other three probes pass, the orchestrator reports "degraded",
not "healthy" — cache unavailability does degrade the overall status. -/
theorem c2_counterexample :
    health_check_status
        { database := true, cache := false, vector_store := true,
          openai := true } = "degraded" ∧ "degraded" ≠ "healthy" := by
  constructor
  · rfl
  · decide

/-- C2 (amended): the overall status is "healthy" exactly when all four
probes — including the cache probe — pass; any failing probe, the cache
probe included, makes it "degraded". -/
theorem c2_health_status_amended (checks : HealthChecks) :
    (health_check_status checks = "healthy" ↔
      checks.database ∧ checks.cache ∧ checks.vector_store ∧ checks.openai) ∧
    (health_check_status checks = "degraded" ↔
      ¬(checks.database ∧ checks.cache ∧ checks.vector_store ∧ checks.openai)) := by
  rcases checks with ⟨d, c, v, o⟩
  rcases d <;> rcases c <;> rcases v <;> rcases o <;>
    simp [health_check_status]

/-! ### Orchestrator response construction (`orchestrator.py`,
`search_orchestrator_process` and `_create_empty_response`). -/

/-- Enriched search result (the fields of `SearchResult` relevant to the
orchestrator's response construction; the enrichment payload is opaque
to it). -/
structure SearchResult where
  document_id : String
  score : ℚ
  source_collection : String
  title : String
  content_snippet : String
deriving DecidableEq, Repr

/-- The response record as the orchestrator constructs it (the keyword
arguments of the `SearchResponse(...)` calls; `search_metadata` is an
opaque payload modelled as key-value pairs). -/
structure SearchResponse where
  query : String
  results : List SearchResult
  total_count : ℕ
  returned_count : ℕ
  search_time_ms : ℕ
  query_id : String
  search_mode : SearchMode
  collections_searched : List String
  filters_applied : Bool
  cache_hit : Bool
  search_metadata : List (String × String)
deriving DecidableEq, Repr

/-- `_get_searched_collections`. -/
def get_searched_collections (q : SearchQuery) : List String :=
  match q.target_collections with
  | some l =>
      if l.isEmpty then
        match q.collection_strategy with
        | .single => ["emails"]
        | .auto => ["emails", "documents", "messages"]
        | _ => ["emails"]
      else l
  | none =>
      match q.collection_strategy with
      | .single => ["emails"]
      | .auto => ["emails", "documents", "messages"]
      | _ => ["emails"]

/-- `_create_empty_response`. -/
def create_empty_response (q : SearchQuery) (query_id : String)
    (search_time : ℕ) : SearchResponse :=
  { query := q.query_text
    results := []
    total_count := 0
    returned_count := 0
    search_time_ms := search_time
    query_id := query_id
    search_mode := q.search_mode
    collections_searched := get_searched_collections q
    filters_applied := q.filters.isSome
    cache_hit := false
    search_metadata := [("message", "검색 결과가 없습니다")] }

/-- Response construction of `search_orchestrator_process`: the
zero-match short circuit returns the canonical empty response without
enriching; otherwise the enriched results are packaged with
`total_count = returned_count = len(enriched_results)`. -/
def search_orchestrator_respond (q : SearchQuery)
    (vector_matches : List VectorMatch)
    (enrich : List VectorMatch → List SearchResult)
    (query_id : String) (search_time : ℕ) : SearchResponse :=
  if vector_matches.isEmpty then create_empty_response q query_id search_time
  else
    let enriched_results := enrich vector_matches
    { query := q.query_text
      results := enriched_results
      total_count := enriched_results.length
      returned_count := enriched_results.length
      search_time_ms := search_time
      query_id := query_id
      search_mode := q.search_mode
      collections_searched := get_searched_collections q
      filters_applied := q.filters.isSome
      cache_hit := false
      search_metadata := [("embedding_model", "text-embedding-ada-002")] }

/-- C10: every response the orchestrator constructs — via the empty
short circuit or the normal path — has
`total_count = returned_count = length of its results list`; the total
is never a corpus-wide count. -/
theorem c10_response_counts (q : SearchQuery)
    (vector_matches : List VectorMatch)
    (enrich : List VectorMatch → List SearchResult)
    (query_id : String) (search_time : ℕ) :
    (search_orchestrator_respond q vector_matches enrich query_id
        search_time).total_count =
      (search_orchestrator_respond q vector_matches enrich query_id
        search_time).results.length ∧
    (search_orchestrator_respond q vector_matches enrich query_id
        search_time).returned_count =
      (search_orchestrator_respond q vector_matches enrich query_id
        search_time).results.length := by
  rw [search_orchestrator_respond]
  by_cases h : vector_matches.isEmpty
  · simp [h, create_empty_response]
  · simp [h]

/-! ### Query processor (`search_query_processor.py`): validation,
classification, and the error-boundary fallback.

Python strings are sequences of Unicode code points, modelled as
`List Char` (wrapped in `String` at the interfaces).  `str.strip()`
removes the characters for which `str.isspace()` holds; `str.lower()`
is modelled on the ASCII range (the code paths under verification feed
it ASCII and Hangul text, and Hangul has no case). -/

/-- Python `str.isspace()` (the whitespace set `str.strip()` removes). -/
def pyIsSpace (c : Char) : Bool :=
  decide (c.toNat ∈ ([0x09, 0x0A, 0x0B, 0x0C, 0x0D, 0x1C, 0x1D, 0x1E, 0x1F,
    0x20, 0x85, 0xA0, 0x1680, 0x2000, 0x2001, 0x2002, 0x2003, 0x2004,
    0x2005, 0x2006, 0x2007, 0x2008, 0x2009, 0x200A, 0x2028, 0x2029,
    0x202F, 0x205F, 0x3000] : List ℕ))

/-- Python `str.strip()` on a code-point list. -/
def pyStripList (l : List Char) : List Char :=
  ((l.dropWhile pyIsSpace).reverse.dropWhile pyIsSpace).reverse

/-- Python `str.strip()`. -/
def pyStrip (s : String) : String := ⟨pyStripList s.data⟩

/-- Python `str.lower()`, ASCII range. -/
def pyLower (s : String) : String := ⟨s.data.map Char.toLower⟩

/-- A character of the class `[a-zA-Z가-힣0-9]` used by
`search_query_validate`'s garbage check. -/
def isWordChar (c : Char) : Bool :=
  decide (97 ≤ c.toNat ∧ c.toNat ≤ 122) ||
  decide (65 ≤ c.toNat ∧ c.toNat ≤ 90) ||
  decide (48 ≤ c.toNat ∧ c.toNat ≤ 57) ||
  decide (0xAC00 ≤ c.toNat ∧ c.toNat ≤ 0xD7A3)

/-- `re.match(r'^[^a-zA-Z가-힣0-9]+$', s)` is truthy exactly when `s` is
nonempty and every code point is outside the word class (a trailing
newline admitted by `$` is itself outside the class, so it adds no
extra case). -/
def matchesOnlyNonWord (l : List Char) : Bool :=
  !l.isEmpty && l.all fun c => !isWordChar c

/-- The four failure messages of `search_query_validate`, in check
order. -/
def msgEmptyQuery : String := "검색어가 비어있습니다"

def msgTooLong : String := "검색어가 너무 깁니다 (최대 1000자)"

def msgTooShort : String := "검색어가 너무 짧습니다 (최소 2자)"

def msgGarbage : String := "유효한 검색어를 입력해주세요"

/-- `search_query_validate`: returns the `{"valid": ..., "message": ...}`
dict as a pair. -/
def search_query_validate (query_text : String) : Bool × String :=
  let l := query_text.data
  if l.isEmpty || (pyStripList l).isEmpty then (false, msgEmptyQuery)
  else if 1000 < l.length then (false, msgTooLong)
  else if (pyStripList l).length < 2 then (false, msgTooShort)
  else if matchesOnlyNonWord l then (false, msgGarbage)
  else (true, "OK")

/-- C6: `search_query_validate` reports invalid (with one of four
pairwise-distinct human-readable reasons) exactly on the claim's bad
classes — trimmed length 0 or 1, raw length over 1000, or nonempty text
with no word character (`[a-zA-Z가-힣0-9]`) — and reports valid on every
string of trimmed length ≥ 2 and raw length ≤ 1000 containing a word
character (the complement). -/
theorem c6_validate_spec (s : String) :
    ((search_query_validate s).1 = false ↔
      (pyStripList s.data).length ≤ 1 ∨ 1000 < s.data.length ∨
        (s.data ≠ [] ∧ ∀ c ∈ s.data, isWordChar c = false)) ∧
    ((search_query_validate s).1 = false →
      (search_query_validate s).2 ∈
        [msgEmptyQuery, msgTooLong, msgTooShort, msgGarbage]) ∧
    ((search_query_validate s).1 = true → (search_query_validate s).2 = "OK") ∧
    [msgEmptyQuery, msgTooLong, msgTooShort, msgGarbage].Pairwise (· ≠ ·) := by
  have hdistinct :
      [msgEmptyQuery, msgTooLong, msgTooShort, msgGarbage].Pairwise (· ≠ ·) := by
    simp [msgEmptyQuery, msgTooLong, msgTooShort, msgGarbage]
  rw [search_query_validate]
  split_ifs with h1 h2 h3 h4
  · refine ⟨?_, by simp, by simp, hdistinct⟩
    simp only [eq_self_iff_true, true_iff]
    left
    rcases Bool.or_eq_true_iff.mp h1 with h | h
    · have : s.data = [] := List.isEmpty_iff.mp h
      simp [this, pyStripList]
    · simp [List.isEmpty_iff.mp h]
  · refine ⟨?_, by simp, by simp, hdistinct⟩
    simp only [eq_self_iff_true, true_iff]
    right; left
    exact h2
  · refine ⟨?_, by simp, by simp, hdistinct⟩
    simp only [eq_self_iff_true, true_iff]
    left
    omega
  · refine ⟨?_, by simp, by simp, hdistinct⟩
    simp only [eq_self_iff_true, true_iff]
    right; right
    have hne : ¬s.data.isEmpty := by
      intro hemp
      exact h1 (Bool.or_eq_true_iff.mpr (Or.inl hemp))
    rcases Bool.and_eq_true_iff.mp h4 with ⟨-, hall⟩
    refine ⟨fun hd => hne (by simp [hd]), ?_⟩
    intro c hc
    have := List.all_eq_true.mp hall c hc
    simpa using this
  · refine ⟨?_, by simp, by simp, hdistinct⟩
    simp only [Bool.true_eq_false, false_iff]
    push_neg
    refine ⟨by omega, by omega, ?_⟩
    intro hne
    have h5 : (!s.data.isEmpty) = true := by simp [List.isEmpty_iff, hne]
    have h6 : ¬(s.data.all fun c => !isWordChar c) = true := by
      intro hall
      refine h4 ?_
      rw [matchesOnlyNonWord, h5, hall]
      rfl
    have h7 := List.all_eq_true.not.mp h6
    push_neg at h7
    rcases h7 with ⟨c, hc, hcw⟩
    have hcw' : isWordChar c = true := by
      rcases Bool.eq_false_or_eq_true (isWordChar c) with h | h
      · exact h
      · exact absurd (by simp [h]) hcw
    exact ⟨c, hc, by simp [hcw']⟩

/-- Pattern-at-head test for the substring search. -/
def startsWithSeq : List Char → List Char → Bool
  | _, [] => true
  | [], _ :: _ => false
  | a :: as, b :: bs => a = b && startsWithSeq as bs

/-- Python `pattern in text` substring containment on code points. -/
def containsSeq : List Char → List Char → Bool
  | [], pat => startsWithSeq [] pat
  | h :: t, pat => startsWithSeq (h :: t) pat || containsSeq t pat

/-- The first guard of `_search_query_classify_type`:
`filters and (filters.date_range or filters.sender or filters.recipients)`
under Python truthiness. -/
def classifyFilterGuard : Option SearchFilters → Bool
  | none => false
  | some f => f.date_range.isSome || truthyOptStr f.sender ||
      truthyOptList f.recipients

/-- The question guard of `_search_query_classify_type`:
`text.endswith("?") or "어디" in text or "무엇" in text`. -/
def classifyQuestionGuard (l : List Char) : Bool :=
  (match l.getLast? with
    | some c => c = '?'
    | none => false) ||
  containsSeq l "어디".data || containsSeq l "무엇".data

/-- `_search_query_classify_type`. -/
def search_query_classify_type (text : String) (filters : Option SearchFilters) :
    String :=
  if classifyFilterGuard filters then "filtered_search"
  else if text.data.contains '"' then "exact_search"
  else if classifyQuestionGuard text.data then "question"
  else "general"

/-- The claim's notion of a populated filter field ("set" means
non-null/non-empty, per the spec's data model), counted over the
`SearchFilters` fields. -/
def populatedCount (f : SearchFilters) : ℕ :=
  (if f.date_range.isSome then 1 else 0) +
  (if truthyOptStr f.sender then 1 else 0) +
  (if truthyOptList f.recipients then 1 else 0) +
  (if truthyOptList f.subject_keywords then 1 else 0) +
  (if f.has_attachments.isSome then 1 else 0) +
  (if truthyOptStr f.email_type then 1 else 0) +
  (if truthyOptList f.tags then 1 else 0)

/-- C4: the claim is false in both directions at concrete inputs: a
filter set with a single populated field (`sender`) is classified
`filtered_search` (the claim requires 2 or more), while a filter set
with two populated fields (`subject_keywords`, `has_attachments`) is
classified `general` (the classifier only tests date range, sender and
recipients). -/
theorem c4_counterexample :
    search_query_classify_type "hello"
        (some { sender := some "kim" }) = "filtered_search" ∧
    populatedCount { sender := some "kim" } = 1 ∧
    search_query_classify_type "hello"
        (some { subject_keywords := some ["budget"],
                has_attachments := some true }) = "general" ∧
    populatedCount
        { subject_keywords := some ["budget"], has_attachments := some true } =
      2 := by
  refine ⟨rfl, rfl, ?_, rfl⟩
  rfl

/-- C4 (amended): classification returns `filtered_search` exactly when
at least one of the date-range, sender, recipients fields is populated;
otherwise `exact_search` exactly when the text contains a double-quote
character; otherwise `question` exactly when the text ends in `?` or
contains an interrogative token (어디/무엇); otherwise `general`. -/
theorem c4_classify_amended (text : String) (filters : Option SearchFilters) :
    (search_query_classify_type text filters = "filtered_search" ↔
      ∃ f, filters = some f ∧
        (f.date_range.isSome = true ∨ truthyOptStr f.sender = true ∨
          truthyOptList f.recipients = true)) ∧
    (search_query_classify_type text filters = "exact_search" ↔
      classifyFilterGuard filters = false ∧ '"' ∈ text.data) ∧
    (search_query_classify_type text filters = "question" ↔
      classifyFilterGuard filters = false ∧ '"' ∉ text.data ∧
        classifyQuestionGuard text.data = true) ∧
    (search_query_classify_type text filters = "general" ↔
      classifyFilterGuard filters = false ∧ '"' ∉ text.data ∧
        classifyQuestionGuard text.data = false) := by
  have hguard : classifyFilterGuard filters = true ↔
      ∃ f, filters = some f ∧
        (f.date_range.isSome = true ∨ truthyOptStr f.sender = true ∨
          truthyOptList f.recipients = true) := by
    cases filters with
    | none => simp [classifyFilterGuard]
    | some f =>
        simp only [classifyFilterGuard, Bool.or_eq_true, Option.some.injEq]
        constructor
        · intro h
          exact ⟨f, rfl, by tauto⟩
        · rintro ⟨g, rfl, h⟩
          tauto
  rw [search_query_classify_type]
  split_ifs with h1 h2 h3 <;>
    refine ⟨?_, ?_, ?_, ?_⟩ <;>
      simp_all [List.elem_iff]

/-- `ProcessedQuery` from `schema.py` (pydantic defaults preserved;
`processing_metadata` modelled as key-value pairs). -/
structure ProcessedQuery where
  original_text : String
  normalized_text : String
  extracted_filters : Option SearchFilters := none
  language : String := "ko"
  query_type : String := "general"
  keywords : List String := []
  processing_metadata : List (String × String) := []
deriving DecidableEq, Repr

/-- The `except` fallback of `search_query_process` (lines 150–158):
`ProcessedQuery(original_text=query_text,
normalized_text=query_text.lower().strip(), extracted_filters=filters,
processing_metadata={"error": str(e)})`. -/
def search_query_process_fallback (query_text : String)
    (filters : Option SearchFilters) (err : String) : ProcessedQuery :=
  { original_text := query_text
    normalized_text := pyStrip (pyLower query_text)
    extracted_filters := filters
    processing_metadata := [("error", err)] }

/-- The error boundary of `search_query_process`: the whole body runs
inside one `try`; a successful body yields its `ProcessedQuery`, any
raised error `e` yields the fallback.  The body (cache lookup,
validation, extraction, …) is abstracted as an `Except` value since the
claim constrains only the failure path. -/
def search_query_process_boundary (query_text : String)
    (filters : Option SearchFilters)
    (body : Except String ProcessedQuery) : ProcessedQuery :=
  match body with
  | .ok p => p
  | .error e => search_query_process_fallback query_text filters e

/-- C5: the claim's "carries no extracted filters" is false: when the
caller passed explicit filters, the failure fallback of
`search_query_process` carries exactly those filters in
`extracted_filters` rather than none. -/
theorem c5_counterexample :
    (search_query_process_boundary "hello budget"
        (some { sender := some "kim@example.com" })
        (Except.error "boom")).extracted_filters ≠ none := by
  intro h
  simp [search_query_process_boundary, search_query_process_fallback] at h

/-- C5 (amended): on any internal failure `search_query_process` does
not propagate the error; it returns the minimally-populated fallback
whose `normalized_text` is the lower-cased, trimmed original text, whose
`extracted_filters` is exactly the caller's explicit filters argument
(`none` when no explicit filters were given — no newly extracted
filters), with default language/type, no keywords, and the error message
recorded in the processing metadata; a successful body is returned
unchanged. -/
theorem c5_process_fallback_amended (query_text : String)
    (filters : Option SearchFilters) (err : String)
    (p : ProcessedQuery) :
    (search_query_process_boundary query_text filters (Except.error err) =
      { original_text := query_text
        normalized_text := pyStrip (pyLower query_text)
        extracted_filters := filters
        language := "ko"
        query_type := "general"
        keywords := []
        processing_metadata := [("error", err)] }) ∧
    search_query_process_boundary query_text filters (Except.ok p) = p :=
  ⟨rfl, rfl⟩

/-! ### Embedding retry loop (`search_embedding_service.py`,
`_create_embedding_with_retry`).

One provider call per loop iteration; the provider's behaviour is an
oracle `ℕ → ApiOutcome` giving each attempt's outcome.  The observable
timing behaviour (provider calls and `asyncio.sleep` durations, in
order) is recorded as an event trace. -/

/-- Outcome of one provider call: success with a vector, or one of the
exception kinds the loop discriminates (`RateLimitError`, `Timeout`,
`APIError`, anything else). -/
inductive ApiOutcome where
  | success (v : List ℚ)
  | rateLimit
  | timeout
  | apiError
  | other
deriving DecidableEq, Repr

/-- Chronological events of the retry loop: sleeps (seconds) and
provider calls (0-based attempt index). -/
inductive RetryEvent where
  | sleep (seconds : ℚ)
  | call (attempt : ℕ)
deriving DecidableEq, Repr

/-- Final outcome: a returned embedding, or the terminal
`raise Exception(f"임베딩 생성 실패 ...: {last_error}")` carrying the last
underlying error (`none` would mean Python's initial `last_error =
None`). -/
inductive RetryResult where
  | ok (v : List ℚ)
  | failed (last_error : Option ApiOutcome)
deriving DecidableEq, Repr

/-- Event trace plus final outcome of `_create_embedding_with_retry`. -/
structure RetryTrace where
  events : List RetryEvent
  result : RetryResult
deriving DecidableEq, Repr

/-- `self.max_retries`. -/
def max_retries : ℕ := 3

/-- `self.retry_delay` (seconds). -/
def retry_delay : ℚ := 1

/-- The body of `for attempt in range(self.max_retries)`, iterating the
remaining attempt indices.  Per iteration: the exponential pre-call
sleep `retry_delay * 2^(attempt-1)` for every attempt after the first;
then the provider call; rate limits additionally sleep 5 s (unless this
was the final attempt), timeouts and unexpected errors just continue,
an `APIError` breaks out of the loop; leaving the loop raises, carrying
`last_error`. -/
def retryLoopGo (f : ℕ → ApiOutcome) (attempts : List ℕ)
    (events : List RetryEvent) (last_error : Option ApiOutcome) : RetryTrace :=
  match attempts with
  | [] => { events := events, result := .failed last_error }
  | attempt :: rest =>
      let events := events ++
        (if 0 < attempt then [RetryEvent.sleep (retry_delay * 2 ^ (attempt - 1))]
         else []) ++ [RetryEvent.call attempt]
      match f attempt with
      | .success v => { events := events, result := .ok v }
      | .rateLimit =>
          retryLoopGo f rest
            (if attempt < max_retries - 1 then events ++ [RetryEvent.sleep 5]
             else events)
            (some .rateLimit)
      | .timeout => retryLoopGo f rest events (some .timeout)
      | .apiError => { events := events, result := .failed (some .apiError) }
      | .other => retryLoopGo f rest events (some .other)

/-- `_create_embedding_with_retry`. -/
def create_embedding_with_retry (f : ℕ → ApiOutcome) : RetryTrace :=
  retryLoopGo f (List.range max_retries) [] none

theorem range_max_retries : List.range max_retries = [0, 1, 2] := rfl

/-- Number of provider calls in a trace. -/
def callCount (events : List RetryEvent) : ℕ :=
  events.countP fun e =>
    match e with
    | .call _ => true
    | _ => false

/-- The sleep durations strictly between provider call `k` and the next
provider call (or the end of the trace). -/
def sleepsAfterCall (events : List RetryEvent) (k : ℕ) : List ℚ :=
  ((((events.dropWhile fun e => e ≠ RetryEvent.call k).drop 1).takeWhile
      fun e =>
        match e with
        | .sleep _ => true
        | _ => false).filterMap
    fun e =>
      match e with
      | .sleep q => some q
      | _ => none)

/-- A retryable (loop-continuing) outcome. -/
def retryableErr (o : ApiOutcome) : Prop :=
  o = .rateLimit ∨ o = .timeout ∨ o = .other

/-- C7 counterexample oracle: the first attempt is rate-limited, the
second succeeds. -/
def c7Outcomes : ℕ → ApiOutcome := fun n =>
  if n = 0 then .rateLimit else .success [1]

/-- C7: the claim's "fixed 5 seconds" is false: after the rate-limited
first attempt the loop sleeps 5 s *and* the exponential pre-attempt
delay of 1 s, so 6 s elapse before the second provider call, not 5 s. -/
theorem c7_counterexample :
    c7Outcomes 0 = .rateLimit ∧
    RetryEvent.call 1 ∈ (create_embedding_with_retry c7Outcomes).events ∧
    sleepsAfterCall (create_embedding_with_retry c7Outcomes).events 0 =
      [5, 1] ∧
    ([5, 1] : List ℚ) ≠ [5] := by
  refine ⟨rfl, ?_, ?_, ?_⟩
  · simp [create_embedding_with_retry, retryLoopGo, c7Outcomes, max_retries,
      retry_delay]
  · norm_num [create_embedding_with_retry, retryLoopGo, c7Outcomes,
      max_retries, retry_delay, sleepsAfterCall]
    rfl
  · intro h
    simpa using congrArg List.length h


set_option maxHeartbeats 2000000 in
theorem c7_retry_amended (f : ℕ → ApiOutcome) :
    callCount (create_embedding_with_retry f).events ≤ 3 ∧
    (f 0 = .rateLimit → RetryEvent.call 1 ∈ (create_embedding_with_retry f).events →
      sleepsAfterCall (create_embedding_with_retry f).events 0 = [5, retry_delay * 2 ^ 0]) ∧
    (f 1 = .rateLimit → RetryEvent.call 2 ∈ (create_embedding_with_retry f).events →
      sleepsAfterCall (create_embedding_with_retry f).events 1 = [5, retry_delay * 2 ^ 1]) ∧
    (f 0 = .timeout → RetryEvent.call 1 ∈ (create_embedding_with_retry f).events →
      sleepsAfterCall (create_embedding_with_retry f).events 0 = [retry_delay * 2 ^ 0]) ∧
    (f 1 = .timeout → RetryEvent.call 2 ∈ (create_embedding_with_retry f).events →
      sleepsAfterCall (create_embedding_with_retry f).events 1 = [retry_delay * 2 ^ 1]) ∧
    (f 0 = .apiError →
      (create_embedding_with_retry f).result = .failed (some .apiError) ∧
      RetryEvent.call 1 ∉ (create_embedding_with_retry f).events) ∧
    (f 0 ≠ .apiError → f 1 = .apiError → RetryEvent.call 1 ∈ (create_embedding_with_retry f).events →
      (create_embedding_with_retry f).result = .failed (some .apiError) ∧
      RetryEvent.call 2 ∉ (create_embedding_with_retry f).events) ∧
    (f 2 = .apiError → RetryEvent.call 2 ∈ (create_embedding_with_retry f).events →
      (create_embedding_with_retry f).result = .failed (some .apiError) ∧
      RetryEvent.call 3 ∉ (create_embedding_with_retry f).events) ∧
    (retryableErr (f 0) → retryableErr (f 1) → retryableErr (f 2) →
      (create_embedding_with_retry f).result = .failed (some (f 2)) ∧
      callCount (create_embedding_with_retry f).events = 3) := by
  cases h0 : f 0 <;> cases h1 : f 1 <;> cases h2 : f 2 <;>
    refine ⟨?_, ?_, ?_, ?_, ?_, ?_, ?_, ?_⟩ <;>
      simp_all [create_embedding_with_retry, range_max_retries, retryLoopGo,
        max_retries, retry_delay, callCount, sleepsAfterCall, retryableErr]
/-- Witness for `c7_retry_amended` at the rate-limited oracle: the sleeps
between the first and second provider calls are the 5 s rate-limit
back-off followed by the 1 s exponential delay. -/
theorem c7_retry_amended_witness :
    sleepsAfterCall (create_embedding_with_retry c7Outcomes).events 0 =
      [5, retry_delay * 2 ^ 0] := by
  have h := (c7_retry_amended c7Outcomes).2.1
  apply h rfl
  simp [create_embedding_with_retry, range_max_retries, retryLoopGo,
    c7Outcomes, max_retries, retry_delay]

/-! ### Performance monitor (`search_performance_monitor.py`):
bottleneck identification and percentile calculation. -/

/-- The four per-component average times of `PerformanceMetrics` that
`search_monitor_identify_bottlenecks` reads (milliseconds). -/
structure ComponentTimes where
  query_processing_time : ℚ
  embedding_generation_time : ℚ
  vector_search_time : ℚ
  result_enrichment_time : ℚ
deriving DecidableEq, Repr

/-- One entry of the bottleneck list. -/
structure Bottleneck where
  component : String
  time_ms : ℚ
  percentage : ℚ
  severity : String
deriving DecidableEq, Repr

/-- The fixed `components` enumeration inside
`search_monitor_identify_bottlenecks`. -/
def bottleneckComponents (m : ComponentTimes) : List (String × ℚ) :=
  [("query_processing", m.query_processing_time),
   ("embedding_generation", m.embedding_generation_time),
   ("vector_search", m.vector_search_time),
   ("result_enrichment", m.result_enrichment_time)]

/-- `total_time` of `search_monitor_identify_bottlenecks`. -/
def totalComponentTime (m : ComponentTimes) : ℚ :=
  m.query_processing_time + m.embedding_generation_time +
    m.vector_search_time + m.result_enrichment_time

/-- `search_monitor_identify_bottlenecks`: when total component time is
positive, flag each component whose percentage share exceeds 40, with
severity "high" above 60 percent and "medium" otherwise. -/
def search_monitor_identify_bottlenecks (m : ComponentTimes) :
    List Bottleneck :=
  if 0 < totalComponentTime m then
    (bottleneckComponents m).filterMap fun p =>
      let percentage := p.2 / totalComponentTime m * 100
      if 40 < percentage then
        some { component := p.1, time_ms := p.2, percentage := percentage,
               severity := if 60 < percentage then "high" else "medium" }
      else none
  else []

/-- C8: the claim's rule is false at a concrete input: with every
component averaging 600 ms (over the claim's 500 ms "high" threshold)
no operation is flagged at all, because the source flags only
components whose share of total component time exceeds 40%. -/
theorem c8_counterexample :
    search_monitor_identify_bottlenecks
        { query_processing_time := 600, embedding_generation_time := 600,
          vector_search_time := 600, result_enrichment_time := 600 } = [] ∧
    (500 : ℚ) < 600 := by
  constructor
  · norm_num [search_monitor_identify_bottlenecks, bottleneckComponents,
      totalComponentTime]
  · norm_num

/-- C8 (amended): an operation is flagged exactly when its average time
exceeds 40% of the total component time (equivalently
`40 * total < 100 * time`), with severity "high" exactly above 60% and
"medium" otherwise; no entry is ever "low"; nothing is flagged when the
total is not positive.  Entries appear in the fixed component order, so
no severity sort exists. -/
theorem c8_bottlenecks_amended (m : ComponentTimes) :
    (totalComponentTime m ≤ 0 → search_monitor_identify_bottlenecks m = []) ∧
    (0 < totalComponentTime m →
      ∀ b, b ∈ search_monitor_identify_bottlenecks m ↔
        ∃ p ∈ bottleneckComponents m,
          40 * totalComponentTime m < 100 * p.2 ∧
          b = { component := p.1, time_ms := p.2,
                percentage := p.2 / totalComponentTime m * 100,
                severity := if 60 * totalComponentTime m < 100 * p.2
                  then "high" else "medium" }) ∧
    (∀ b ∈ search_monitor_identify_bottlenecks m, b.severity ≠ "low") := by
  have hpct : ∀ t : ℚ, 0 < totalComponentTime m →
      ∀ c : ℚ, (c < t / totalComponentTime m * 100 ↔
        c * totalComponentTime m < 100 * t) := by
    intro t hpos c
    rw [div_mul_eq_mul_div, lt_div_iff hpos, mul_comm t 100]
  refine ⟨?_, ?_, ?_⟩
  · intro hle
    rw [search_monitor_identify_bottlenecks, if_neg (not_lt.mpr hle)]
  · intro hpos b
    rw [search_monitor_identify_bottlenecks, if_pos hpos, List.mem_filterMap]
    constructor
    · rintro ⟨p, hp, hsome⟩
      simp only at hsome
      by_cases h40 : (40 : ℚ) < p.2 / totalComponentTime m * 100
      · rw [if_pos h40] at hsome
        refine ⟨p, hp, (hpct p.2 hpos 40).mp h40, ?_⟩
        rcases Option.some.injEq _ _ ▸ hsome with rfl
        have h60 : ((60 : ℚ) < p.2 / totalComponentTime m * 100) ↔
            60 * totalComponentTime m < 100 * p.2 := hpct p.2 hpos 60
        by_cases h : (60 : ℚ) < p.2 / totalComponentTime m * 100
        · simp [h, h60.mp h]
        · rw [if_neg h, if_neg (fun hc => h (h60.mpr hc))]
      · rw [if_neg h40] at hsome
        exact absurd hsome (by simp)
    · rintro ⟨p, hp, h40, rfl⟩
      refine ⟨p, hp, ?_⟩
      have h40' : (40 : ℚ) < p.2 / totalComponentTime m * 100 :=
        (hpct p.2 hpos 40).mpr h40
      simp only [if_pos h40']
      have h60 : ((60 : ℚ) < p.2 / totalComponentTime m * 100) ↔
          60 * totalComponentTime m < 100 * p.2 := hpct p.2 hpos 60
      by_cases h : (60 : ℚ) < p.2 / totalComponentTime m * 100
      · simp [h, h60.mp h]
      · rw [if_neg h, if_neg (fun hc => h (h60.mpr hc))]
  · intro b hb
    rw [search_monitor_identify_bottlenecks] at hb
    by_cases hpos : 0 < totalComponentTime m
    · rw [if_pos hpos, List.mem_filterMap] at hb
      rcases hb with ⟨p, -, hsome⟩
      simp only at hsome
      by_cases h40 : (40 : ℚ) < p.2 / totalComponentTime m * 100
      · rw [if_pos h40] at hsome
        rcases Option.some.injEq _ _ ▸ hsome with rfl
        by_cases h : (60 : ℚ) < p.2 / totalComponentTime m * 100 <;>
          simp [h]
      · rw [if_neg h40] at hsome
        exact absurd hsome (by simp)
    · rw [if_neg hpos] at hb
      exact absurd hb (by simp)

/-- Witness for `c8_bottlenecks_amended`: with all component times zero
the total is not positive and nothing is flagged. -/
theorem c8_bottlenecks_amended_witness :
    search_monitor_identify_bottlenecks
        { query_processing_time := 0, embedding_generation_time := 0,
          vector_search_time := 0, result_enrichment_time := 0 } = [] :=
  (c8_bottlenecks_amended _).1 (by norm_num [totalComponentTime])

/-- Result dict of `search_monitor_calculate_percentiles`. -/
structure Percentiles where
  p50 : ℚ
  p95 : ℚ
  p99 : ℚ
deriving DecidableEq, Repr

/-- Stable ascending insertion (Python `sorted` on the samples). -/
def insertAsc (x : ℚ) : List ℚ → List ℚ
  | [] => [x]
  | y :: ys => if x ≤ y then x :: y :: ys else y :: insertAsc x ys

/-- Ascending sort of the latency samples. -/
def sortAsc : List ℚ → List ℚ
  | [] => []
  | x :: xs => insertAsc x (sortAsc xs)

/-- `search_monitor_calculate_percentiles`: zeros on no samples,
otherwise nearest-rank indices `int(n * 0.5)`, `int(n * 0.95)`,
`int(n * 0.99)` into the ascending-sorted samples, falling back to the
last element when the index would overflow.  `int(n * p)` on the
nonnegative float product is modelled as the rational floor; the float
products involved are exact at every achievable sample count. -/
def search_monitor_calculate_percentiles (response_times : List ℚ) :
    Percentiles :=
  if response_times.isEmpty then { p50 := 0, p95 := 0, p99 := 0 }
  else
    let sorted_times := sortAsc response_times
    let n := response_times.length
    let p50_idx := Nat.floor ((n : ℚ) * (50 / 100))
    let p95_idx := Nat.floor ((n : ℚ) * (95 / 100))
    let p99_idx := Nat.floor ((n : ℚ) * (99 / 100))
    { p50 := if p50_idx < n then sorted_times.getD p50_idx 0
        else sorted_times.getLastD 0
      p95 := if p95_idx < n then sorted_times.getD p95_idx 0
        else sorted_times.getLastD 0
      p99 := if p99_idx < n then sorted_times.getD p99_idx 0
        else sorted_times.getLastD 0 }

theorem percent_idx_lt (n p : ℕ) (hn : 0 < n) (hp : p < 100) :
    n * p / 100 < n := by
  rw [Nat.div_lt_iff_lt_mul (by norm_num : (0:ℕ) < 100)]
  exact mul_lt_mul_of_pos_left hp hn

/-- C9: the percentile computation is the nearest-rank method of the
claim: for every nonempty sample list the p-th percentile (p ∈
{50, 95, 99}) is the ascending-sorted element at index
`floor(p/100 · n)` clamped to the last index, and on the claim's sample
set `[10, 20, 30, 40, 50]`, p50 = 30 and p95 = 50 (and p99 = 50). -/
theorem c9_percentiles_nearest_rank :
    (∀ l : List ℚ, l ≠ [] →
      search_monitor_calculate_percentiles l =
        { p50 := (sortAsc l).getD (min (l.length * 50 / 100) (l.length - 1)) 0
          p95 := (sortAsc l).getD (min (l.length * 95 / 100) (l.length - 1)) 0
          p99 := (sortAsc l).getD
            (min (l.length * 99 / 100) (l.length - 1)) 0 }) ∧
    search_monitor_calculate_percentiles [10, 20, 30, 40, 50] =
      { p50 := 30, p95 := 50, p99 := 50 } := by
  have main : ∀ l : List ℚ, l ≠ [] →
      search_monitor_calculate_percentiles l =
        { p50 := (sortAsc l).getD (min (l.length * 50 / 100) (l.length - 1)) 0
          p95 := (sortAsc l).getD (min (l.length * 95 / 100) (l.length - 1)) 0
          p99 := (sortAsc l).getD
            (min (l.length * 99 / 100) (l.length - 1)) 0 } := by
    intro l hl
    have hne : ¬l.isEmpty := by simp [List.isEmpty_iff, hl]
    have hn : 0 < l.length := List.length_pos.mpr hl
    rw [search_monitor_calculate_percentiles, if_neg hne]
    have e50 : Nat.floor ((l.length : ℚ) * (50 / 100)) = l.length * 50 / 100 := by
      rw [show ((l.length : ℚ) * (50 / 100)) =
          ((l.length * 50 : ℕ) : ℚ) / ((100 : ℕ) : ℚ) by push_cast; ring]
      rw [Nat.floor_div_nat, Nat.floor_natCast]
    have e95 : Nat.floor ((l.length : ℚ) * (95 / 100)) = l.length * 95 / 100 := by
      rw [show ((l.length : ℚ) * (95 / 100)) =
          ((l.length * 95 : ℕ) : ℚ) / ((100 : ℕ) : ℚ) by push_cast; ring]
      rw [Nat.floor_div_nat, Nat.floor_natCast]
    have e99 : Nat.floor ((l.length : ℚ) * (99 / 100)) = l.length * 99 / 100 := by
      rw [show ((l.length : ℚ) * (99 / 100)) =
          ((l.length * 99 : ℕ) : ℚ) / ((100 : ℕ) : ℚ) by push_cast; ring]
      rw [Nat.floor_div_nat, Nat.floor_natCast]
    simp only [e50, e95, e99]
    have h50 := percent_idx_lt l.length 50 hn (by norm_num)
    have h95 := percent_idx_lt l.length 95 hn (by norm_num)
    have h99 := percent_idx_lt l.length 99 hn (by norm_num)
    rw [if_pos h50, if_pos h95, if_pos h99,
      min_eq_left (by omega), min_eq_left (by omega), min_eq_left (by omega)]
  refine ⟨main, ?_⟩
  rw [main [10, 20, 30, 40, 50] (by simp)]
  norm_num [sortAsc, insertAsc]

/-- Witness for `c9_percentiles_nearest_rank` at the claim's sample
set. -/
theorem c9_percentiles_nearest_rank_witness :
    search_monitor_calculate_percentiles [10, 20, 30, 40, 50] =
      { p50 := (sortAsc [10, 20, 30, 40, 50]).getD (min (5 * 50 / 100) 4) 0
        p95 := (sortAsc [10, 20, 30, 40, 50]).getD (min (5 * 95 / 100) 4) 0
        p99 := (sortAsc [10, 20, 30, 40, 50]).getD (min (5 * 99 / 100) 4) 0 } :=
  c9_percentiles_nearest_rank.1 [10, 20, 30, 40, 50] (by simp)

end IacsSearch
